import Mathlib

/-! Verification of the SID chiptune header decoder (Rust crate sid_file, src/lib.rs).

The Rust source parses a fully buffered byte slice into a SidFile structure
through a strict sequence of bounds-checked reads, each followed by a
per-field validation.  The embedding below models bytes as natural numbers,
the io Cursor as an explicit position into the input list, io errors as an
explicit error type whose eof constructor records the position and the byte
count the failing read requested, and Rust String values as lists of
unicode scalar values (the chars produced by a lossy UTF-8 decode). -/

set_option maxRecDepth 100000

namespace Sid

/-- Models the source enum Type (the file keyword Type is reserved in Lean). -/
inductive SidType where
  | RSID
  | PSID
  | Unknown
  deriving DecidableEq, Repr

inductive Version where
  | V1
  | V2
  | V3
  | V4
  deriving DecidableEq, Repr

inductive Format where
  | InternalPlayer
  | MusData
  deriving DecidableEq, Repr

set_option linter.dupNamespace false in
inductive PlaySID where
  | C64
  | PlaySID
  deriving DecidableEq, Repr

inductive Clock where
  | Unknown
  | PAL
  | NTSC
  | Both
  deriving DecidableEq, Repr

inductive ChipModel where
  | Unknown
  | MOS6581
  | MOS8580
  | Both
  deriving DecidableEq, Repr

structure Flags where
  format : Format
  play_sid : PlaySID
  clock : Clock
  sid_model : ChipModel
  second_sid_model : ChipModel
  third_sid_model : ChipModel
  deriving DecidableEq, Repr

/-- The parse result.  Rust String fields are modelled as lists of unicode
scalar values; the data payload is the list of remaining bytes. -/
structure SidFile where
  file_type : SidType
  version : Version
  data_offset : Nat
  load_address : Nat
  init_address : Nat
  play_address : Nat
  songs : Nat
  start_song : Nat
  speed : Nat
  name : List Nat
  author : List Nat
  released : List Nat
  flags : Option Flags
  start_page : Option Nat
  page_length : Option Nat
  second_sid_address : Option Nat
  third_sid_address : Option Nat
  real_load_address : Nat
  data : List Nat
  deriving DecidableEq, Repr

/-- Models std io Error as produced by the decoder: one constructor per
InvalidData message in the source, plus eof for an UnexpectedEof raised by a
read of some byte count at some cursor position. -/
inductive ParseError where
  | invalidFileType
  | invalidVersion
  | invalidDataOffset
  | invalidPlayAddress
  | invalidInitAddress
  | invalidSongs
  | invalidStartSong
  | invalidSpeed
  | invalidFlags
  | eof (pos need : Nat)
  deriving DecidableEq, Repr

instance {ε α : Type} [DecidableEq ε] [DecidableEq α] : DecidableEq (Except ε α) := fun x y =>
  match x, y with
  | .error a, .error b => if h : a = b then .isTrue (by rw [h]) else .isFalse (by simp [h])
  | .ok a, .ok b => if h : a = b then .isTrue (by rw [h]) else .isFalse (by simp [h])
  | .error _, .ok _ => .isFalse (by simp)
  | .ok _, .error _ => .isFalse (by simp)

/-- Big-endian value of a byte list. -/
def beVal (l : List Nat) : Nat :=
  l.foldl (fun acc b => acc * 256 + b) 0

/-- Little-endian value of a byte list. -/
def leVal (l : List Nat) : Nat :=
  beVal l.reverse

/-- Models Read.read_exact on a Cursor: yields the next n bytes and the
advanced position, or UnexpectedEof when fewer than n bytes remain. -/
def readExact (input : List Nat) (pos n : Nat) : Except ParseError (List Nat × Nat) :=
  if pos + n ≤ input.length then .ok ((input.drop pos).take n, pos + n)
  else .error (.eof pos n)

/-- Models ReadBytesExt.read_u8. -/
def readU8 (input : List Nat) (pos : Nat) : Except ParseError (Nat × Nat) :=
  match readExact input pos 1 with
  | .error e => .error e
  | .ok (l, p) => .ok (beVal l, p)

/-- Models ReadBytesExt.read_u16 with BigEndian byte order. -/
def readU16BE (input : List Nat) (pos : Nat) : Except ParseError (Nat × Nat) :=
  match readExact input pos 2 with
  | .error e => .error e
  | .ok (l, p) => .ok (beVal l, p)

/-- Models ReadBytesExt.read_u16 with LittleEndian byte order. -/
def readU16LE (input : List Nat) (pos : Nat) : Except ParseError (Nat × Nat) :=
  match readExact input pos 2 with
  | .error e => .error e
  | .ok (l, p) => .ok (leVal l, p)

/-- Models ReadBytesExt.read_u32 with BigEndian byte order. -/
def readU32BE (input : List Nat) (pos : Nat) : Except ParseError (Nat × Nat) :=
  match readExact input pos 4 with
  | .error e => .error e
  | .ok (l, p) => .ok (beVal l, p)

/-- Is the byte a UTF-8 continuation byte. -/
def isCont (b : Nat) : Bool :=
  0x80 ≤ b && b ≤ 0xBF

/-- Admissible second byte of a 3- or 4-byte UTF-8 sequence with lead a,
as in the std UTF-8 validation that from_utf8_lossy relies on. -/
def sndByteOk (a b : Nat) : Bool :=
  if a = 0xE0 then 0xA0 ≤ b && b ≤ 0xBF
  else if a = 0xED then 0x80 ≤ b && b ≤ 0x9F
  else if a = 0xF0 then 0x90 ≤ b && b ≤ 0xBF
  else if a = 0xF4 then 0x80 ≤ b && b ≤ 0x8F
  else isCont b

/-- Worker for the lossy UTF-8 decode.  The fuel argument only makes the
recursion structural: every step consumes at least one byte, so fuel equal
to the length of the list is never exhausted. -/
def utf8Go : Nat → List Nat → List Nat
  | _, [] => []
  | 0, _ :: _ => []
  | fuel + 1, a :: t =>
    if a ≤ 0x7F then a :: utf8Go fuel t
    else if a < 0xC2 then 0xFFFD :: utf8Go fuel t
    else if a ≤ 0xDF then
      match t with
      | [] => [0xFFFD]
      | b :: t2 =>
        if isCont b then ((a - 0xC0) * 0x40 + (b - 0x80)) :: utf8Go fuel t2
        else 0xFFFD :: utf8Go fuel t
    else if a ≤ 0xEF then
      match t with
      | [] => [0xFFFD]
      | b :: t2 =>
        if sndByteOk a b then
          match t2 with
          | [] => [0xFFFD]
          | c :: t3 =>
            if isCont c then
              ((a - 0xE0) * 0x1000 + (b - 0x80) * 0x40 + (c - 0x80)) :: utf8Go fuel t3
            else 0xFFFD :: utf8Go fuel t2
        else 0xFFFD :: utf8Go fuel t
    else if a ≤ 0xF4 then
      match t with
      | [] => [0xFFFD]
      | b :: t2 =>
        if sndByteOk a b then
          match t2 with
          | [] => [0xFFFD]
          | c :: t3 =>
            if isCont c then
              match t3 with
              | [] => [0xFFFD]
              | d :: t4 =>
                if isCont d then
                  ((a - 0xF0) * 0x40000 + (b - 0x80) * 0x1000 + (c - 0x80) * 0x40 + (d - 0x80))
                    :: utf8Go fuel t4
                else 0xFFFD :: utf8Go fuel t3
            else 0xFFFD :: utf8Go fuel t2
        else 0xFFFD :: utf8Go fuel t
    else 0xFFFD :: utf8Go fuel t

/-- Models String.from_utf8_lossy: decodes a byte list to the list of
unicode scalar values, replacing each maximal subpart of an invalid
sequence by U+FFFD, exactly as the std lossy decoder does. -/
def from_utf8_lossy (l : List Nat) : List Nat :=
  utf8Go l.length l

/-- Models str.trim_matches with the NUL char: removes leading and trailing
NUL scalar values. -/
def trimNulEnds (l : List Nat) : List Nat :=
  ((l.dropWhile (· == 0)).reverse.dropWhile (· == 0)).reverse

def get_file_type (input : List Nat) (pos : Nat) : Except ParseError (SidType × Nat) :=
  match readU32BE input pos with
  | .error e => .error e
  | .ok (file_type, pos) =>
    if file_type = 0x52534944 then .ok (.RSID, pos)
    else if file_type = 0x50534944 then .ok (.PSID, pos)
    else .error .invalidFileType

def get_version (input : List Nat) (pos : Nat) (file_type : SidType) :
    Except ParseError (Version × Nat) :=
  match readU16BE input pos with
  | .error e => .error e
  | .ok (version, pos) =>
    if version = 0x01 then .ok (.V1, pos)
    else
      match file_type with
      | .PSID | .RSID =>
        if version = 0x02 then .ok (.V2, pos)
        else if version = 0x03 then .ok (.V3, pos)
        else if version = 0x04 then .ok (.V4, pos)
        else .error .invalidVersion
      | .Unknown => .error .invalidVersion

def get_data_offset (input : List Nat) (pos : Nat) (version : Version) :
    Except ParseError (Nat × Nat) :=
  match readU16BE input pos with
  | .error e => .error e
  | .ok (data_offset, pos) =>
    match version with
    | .V1 => if data_offset = 0x76 then .ok (0x76, pos) else .error .invalidDataOffset
    | .V2 => if data_offset = 0x7C then .ok (0x7C, pos) else .error .invalidDataOffset
    | .V3 => if data_offset = 0x7C then .ok (0x7C, pos) else .error .invalidDataOffset
    | .V4 => if data_offset = 0x7C then .ok (0x7C, pos) else .error .invalidDataOffset

def get_load_address (input : List Nat) (pos : Nat) : Except ParseError (Nat × Nat) :=
  readU16BE input pos

def get_real_load_address (input : List Nat) (pos : Nat) : Except ParseError (Nat × Nat) :=
  readU16LE input pos

def get_play_address (input : List Nat) (pos : Nat) (file_type : SidType) :
    Except ParseError (Nat × Nat) :=
  match readU16BE input pos with
  | .error e => .error e
  | .ok (play_address, pos) =>
    match file_type with
    | .RSID => if play_address = 0 then .ok (play_address, pos) else .error .invalidPlayAddress
    | .PSID => if play_address ≤ 0xFFFF then .ok (play_address, pos) else .error .invalidPlayAddress
    | .Unknown => .error .invalidPlayAddress

def get_init_address (input : List Nat) (pos : Nat) (file_type : SidType) :
    Except ParseError (Nat × Nat) :=
  match readU16BE input pos with
  | .error e => .error e
  | .ok (init_address, pos) =>
    match file_type with
    | .RSID =>
      if 0x07E8 ≤ init_address ∧ init_address ≤ 0x9FFF then .ok (init_address, pos)
      else if 0xC000 ≤ init_address ∧ init_address ≤ 0xCFFF then .ok (init_address, pos)
      else .error .invalidInitAddress
    | .PSID => if init_address ≤ 0xFFFF then .ok (init_address, pos) else .error .invalidInitAddress
    | .Unknown => .error .invalidInitAddress

def get_songs (input : List Nat) (pos : Nat) : Except ParseError (Nat × Nat) :=
  match readU16BE input pos with
  | .error e => .error e
  | .ok (songs, pos) =>
    if 0x0001 ≤ songs ∧ songs ≤ 0x0100 then .ok (songs, pos)
    else .error .invalidSongs

def get_start_song (input : List Nat) (pos : Nat) (songs : Nat) : Except ParseError (Nat × Nat) :=
  match readU16BE input pos with
  | .error e => .error e
  | .ok (start_song, pos) =>
    if start_song ≤ songs then .ok (start_song, pos)
    else .error .invalidStartSong

def get_speed (input : List Nat) (pos : Nat) (file_type : SidType) :
    Except ParseError (Nat × Nat) :=
  match readU32BE input pos with
  | .error e => .error e
  | .ok (speed, pos) =>
    match file_type with
    | .RSID => if speed = 0 then .ok (speed, pos) else .error .invalidSpeed
    | .PSID => .ok (speed, pos)
    | .Unknown => .error .invalidSpeed

def get_name (input : List Nat) (pos : Nat) : Except ParseError (List Nat × Nat) :=
  match readExact input pos 32 with
  | .error e => .error e
  | .ok (name, pos) => .ok (trimNulEnds (from_utf8_lossy name), pos)

def get_author (input : List Nat) (pos : Nat) : Except ParseError (List Nat × Nat) :=
  match readExact input pos 32 with
  | .error e => .error e
  | .ok (author, pos) => .ok (trimNulEnds (from_utf8_lossy author), pos)

def get_released (input : List Nat) (pos : Nat) : Except ParseError (List Nat × Nat) :=
  match readExact input pos 32 with
  | .error e => .error e
  | .ok (released, pos) => .ok (trimNulEnds (from_utf8_lossy released), pos)

def get_sid_model (bit0 bit1 : Bool) : ChipModel :=
  match bit0, bit1 with
  | false, false => .Unknown
  | false, true => .MOS6581
  | true, false => .MOS8580
  | true, true => .Both

/-- The bit vector built in get_flags: a placeholder false entry followed by
the 16 bits of the flags word, least significant first. -/
def flagBits (flags : Nat) : List Bool :=
  false :: (List.range 16).map (fun n => (flags >>> n) &&& 1 == 1)

def get_flags (input : List Nat) (pos : Nat) : Except ParseError (Flags × Nat) :=
  match readU16BE input pos with
  | .error e => .error e
  | .ok (flags, pos) =>
    let bits := flagBits flags
    let format := match bits.getD 0 false with
      | false => Format.InternalPlayer
      | true => Format.MusData
    let play_sid := match bits.getD 1 false with
      | false => PlaySID.C64
      | true => PlaySID.PlaySID
    let clock := match bits.getD 2 false, bits.getD 3 false with
      | false, false => Clock.Unknown
      | false, true => Clock.PAL
      | true, false => Clock.NTSC
      | true, true => Clock.Both
    let sid_model := get_sid_model (bits.getD 4 false) (bits.getD 5 false)
    let second_sid_model := get_sid_model (bits.getD 6 false) (bits.getD 7 false)
    let third_sid_model := get_sid_model (bits.getD 8 false) (bits.getD 9 false)
    if ((bits.drop 10).take 6).any id then .error .invalidFlags
    else .ok (⟨format, play_sid, clock, sid_model, second_sid_model, third_sid_model⟩, pos)

def get_start_page (input : List Nat) (pos : Nat) : Except ParseError (Nat × Nat) :=
  readU8 input pos

def get_page_length (input : List Nat) (pos : Nat) : Except ParseError (Nat × Nat) :=
  readU8 input pos

def get_sid_address (input : List Nat) (pos : Nat) : Except ParseError (Nat × Nat) :=
  readU8 input pos

/-- Models get_data: read_to_end never fails on a Cursor and its error is
discarded anyway; the remainder of the input becomes the payload. -/
def get_data (input : List Nat) (pos : Nat) : Except ParseError (List Nat × Nat) :=
  .ok (input.drop pos, input.length)

/-- Models the Rust question-mark operator on one parse step: a failing
read or validation aborts the whole operation with its error, a successful
one hands the value and the advanced cursor to the continuation. -/
def step {α β : Type} (x : Except ParseError (α × Nat))
    (f : α → Nat → Except ParseError β) : Except ParseError β :=
  match x with
  | .error e => .error e
  | .ok (a, pos) => f a pos

/-- Models SidFile::parse: the strict field sequence with the version branch. -/
def parse (input : List Nat) : Except ParseError SidFile :=
  step (get_file_type input 0) fun file_type pos =>
  step (get_version input pos file_type) fun version pos =>
  step (get_data_offset input pos version) fun data_offset pos =>
  step (get_load_address input pos) fun load_address pos =>
  step (get_init_address input pos file_type) fun init_address pos =>
  step (get_play_address input pos file_type) fun play_address pos =>
  step (get_songs input pos) fun songs pos =>
  step (get_start_song input pos songs) fun start_song pos =>
  step (get_speed input pos file_type) fun speed pos =>
  step (get_name input pos) fun name pos =>
  step (get_author input pos) fun author pos =>
  step (get_released input pos) fun released pos =>
  match version with
  | .V1 =>
    step (get_real_load_address input pos) fun real_load_address pos =>
    step (get_data input pos) fun data _ =>
      .ok ⟨file_type, version, data_offset, load_address, init_address, play_address,
        songs, start_song, speed, name, author, released,
        none, none, none, none, none, real_load_address, data⟩
  | _ =>
    step (get_flags input pos) fun flags pos =>
    step (get_start_page input pos) fun start_page pos =>
    step (get_page_length input pos) fun page_length pos =>
    step (get_sid_address input pos) fun second_sid_address pos =>
    step (get_sid_address input pos) fun third_sid_address pos =>
    step (get_real_load_address input pos) fun real_load_address pos =>
    step (get_data input pos) fun data _ =>
      .ok ⟨file_type, version, data_offset, load_address, init_address, play_address,
        songs, start_song, speed, name, author, released,
        some flags, some start_page, some page_length,
        some second_sid_address, some third_sid_address, real_load_address, data⟩

/-- A complete valid V1 RSID input: 120 header bytes plus one payload byte. -/
def exV1 : List Nat :=
  [0x52, 0x53, 0x49, 0x44, 0x00, 0x01, 0x00, 0x76, 0x10, 0x00, 0x08, 0x00,
   0x00, 0x00, 0x00, 0x01, 0x00, 0x01, 0x00, 0x00, 0x00, 0x00]
  ++ (0x41 :: List.replicate 31 0)
  ++ List.replicate 32 0
  ++ List.replicate 32 0
  ++ [0x34, 0x12, 0xAA]

def exV1parsed : SidFile :=
  ⟨.RSID, .V1, 0x76, 0x1000, 0x0800, 0, 1, 1, 0, [0x41], [], [],
   none, none, none, none, none, 0x1234, [0xAA]⟩

/-- A complete valid V2 PSID input: 126 header bytes plus three payload bytes. -/
def exV2 : List Nat :=
  [0x50, 0x53, 0x49, 0x44, 0x00, 0x02, 0x00, 0x7C, 0x00, 0x00, 0x00, 0x00,
   0x00, 0x00, 0x00, 0x05, 0x00, 0x05, 0x00, 0x00, 0x00, 0x01]
  ++ List.replicate 32 0
  ++ List.replicate 32 0
  ++ List.replicate 32 0
  ++ [0x00, 0x00, 0x10, 0x20, 0x42, 0x43, 0x00, 0x00, 0x01, 0x02, 0x03]

def exV2parsed : SidFile :=
  ⟨.PSID, .V2, 0x7C, 0, 0, 0, 5, 5, 1, [], [], [],
   some ⟨.InternalPlayer, .C64, .Unknown, .Unknown, .Unknown, .Unknown⟩,
   some 0x10, some 0x20, some 0x42, some 0x43, 0, [1, 2, 3]⟩

/-- Spec-side comparison function, modelled from the claim wording for the
text fields: strips only the trailing NUL padding. -/
def trimNulTrailing (l : List Nat) : List Nat :=
  (l.reverse.dropWhile (· == 0)).reverse

/-- A valid V1 RSID input whose name slot has a leading NUL before the text. -/
def ex3 : List Nat :=
  [0x52, 0x53, 0x49, 0x44, 0x00, 0x01, 0x00, 0x76, 0x10, 0x00, 0x08, 0x00,
   0x00, 0x00, 0x00, 0x01, 0x00, 0x01, 0x00, 0x00, 0x00, 0x00]
  ++ (0x00 :: 0x41 :: List.replicate 30 0)
  ++ List.replicate 32 0
  ++ List.replicate 32 0
  ++ [0x00, 0x00]

def ex3parsed : SidFile :=
  ⟨.RSID, .V1, 0x76, 0x1000, 0x0800, 0, 1, 1, 0, [0x41], [], [],
   none, none, none, none, none, 0, []⟩

/-- A valid RSID prefix cut short inside the song count field: 14 complete
header bytes and a single leftover byte. -/
def ex4 : List Nat :=
  [0x52, 0x53, 0x49, 0x44, 0x00, 0x01, 0x00, 0x76, 0x00, 0x00, 0x08, 0x00,
   0x00, 0x00, 0x00]

theorem readExact_ok {input : List Nat} {pos n p : Nat} {l : List Nat}
    (h : readExact input pos n = .ok (l, p)) :
    p = pos + n ∧ pos + n ≤ input.length ∧ l = (input.drop pos).take n := by
  unfold readExact at h
  split at h
  · simp only [Except.ok.injEq, Prod.mk.injEq] at h
    exact ⟨h.2.symm, by assumption, h.1.symm⟩
  · cases h

theorem readExact_error {input : List Nat} {pos n : Nat} {e : ParseError}
    (h : readExact input pos n = .error e) :
    e = .eof pos n ∧ input.length < pos + n := by
  unfold readExact at h
  split at h
  · cases h
  · simp only [Except.error.injEq] at h
    refine ⟨h.symm, by omega⟩

theorem readU8_ok {input : List Nat} {pos v p : Nat}
    (h : readU8 input pos = .ok (v, p)) :
    p = pos + 1 ∧ pos + 1 ≤ input.length ∧ v = beVal ((input.drop pos).take 1) := by
  unfold readU8 at h
  cases hr : readExact input pos 1 with
  | error e => rw [hr] at h; cases h
  | ok lp =>
    obtain ⟨l, q⟩ := lp
    rw [hr] at h
    simp only [Except.ok.injEq, Prod.mk.injEq] at h
    obtain ⟨h1, h2⟩ := h
    obtain ⟨hq, hle, hl⟩ := readExact_ok hr
    exact ⟨h2 ▸ hq, hle, by rw [← h1, hl]⟩

theorem readU8_error {input : List Nat} {pos : Nat} {e : ParseError}
    (h : readU8 input pos = .error e) :
    e = .eof pos 1 ∧ input.length < pos + 1 := by
  unfold readU8 at h
  cases hr : readExact input pos 1 with
  | error e2 =>
    rw [hr] at h
    simp only [Except.error.injEq] at h
    exact h ▸ readExact_error hr
  | ok lp => obtain ⟨l, q⟩ := lp; rw [hr] at h; cases h

theorem readU16BE_ok {input : List Nat} {pos v p : Nat}
    (h : readU16BE input pos = .ok (v, p)) :
    p = pos + 2 ∧ pos + 2 ≤ input.length ∧ v = beVal ((input.drop pos).take 2) := by
  unfold readU16BE at h
  cases hr : readExact input pos 2 with
  | error e => rw [hr] at h; cases h
  | ok lp =>
    obtain ⟨l, q⟩ := lp
    rw [hr] at h
    simp only [Except.ok.injEq, Prod.mk.injEq] at h
    obtain ⟨h1, h2⟩ := h
    obtain ⟨hq, hle, hl⟩ := readExact_ok hr
    exact ⟨h2 ▸ hq, hle, by rw [← h1, hl]⟩

theorem readU16BE_error {input : List Nat} {pos : Nat} {e : ParseError}
    (h : readU16BE input pos = .error e) :
    e = .eof pos 2 ∧ input.length < pos + 2 := by
  unfold readU16BE at h
  cases hr : readExact input pos 2 with
  | error e2 =>
    rw [hr] at h
    simp only [Except.error.injEq] at h
    exact h ▸ readExact_error hr
  | ok lp => obtain ⟨l, q⟩ := lp; rw [hr] at h; cases h

theorem readU16LE_ok {input : List Nat} {pos v p : Nat}
    (h : readU16LE input pos = .ok (v, p)) :
    p = pos + 2 ∧ pos + 2 ≤ input.length ∧ v = leVal ((input.drop pos).take 2) := by
  unfold readU16LE at h
  cases hr : readExact input pos 2 with
  | error e => rw [hr] at h; cases h
  | ok lp =>
    obtain ⟨l, q⟩ := lp
    rw [hr] at h
    simp only [Except.ok.injEq, Prod.mk.injEq] at h
    obtain ⟨h1, h2⟩ := h
    obtain ⟨hq, hle, hl⟩ := readExact_ok hr
    exact ⟨h2 ▸ hq, hle, by rw [← h1, hl]⟩

theorem readU16LE_error {input : List Nat} {pos : Nat} {e : ParseError}
    (h : readU16LE input pos = .error e) :
    e = .eof pos 2 ∧ input.length < pos + 2 := by
  unfold readU16LE at h
  cases hr : readExact input pos 2 with
  | error e2 =>
    rw [hr] at h
    simp only [Except.error.injEq] at h
    exact h ▸ readExact_error hr
  | ok lp => obtain ⟨l, q⟩ := lp; rw [hr] at h; cases h

theorem readU32BE_ok {input : List Nat} {pos v p : Nat}
    (h : readU32BE input pos = .ok (v, p)) :
    p = pos + 4 ∧ pos + 4 ≤ input.length ∧ v = beVal ((input.drop pos).take 4) := by
  unfold readU32BE at h
  cases hr : readExact input pos 4 with
  | error e => rw [hr] at h; cases h
  | ok lp =>
    obtain ⟨l, q⟩ := lp
    rw [hr] at h
    simp only [Except.ok.injEq, Prod.mk.injEq] at h
    obtain ⟨h1, h2⟩ := h
    obtain ⟨hq, hle, hl⟩ := readExact_ok hr
    exact ⟨h2 ▸ hq, hle, by rw [← h1, hl]⟩

theorem readU32BE_error {input : List Nat} {pos : Nat} {e : ParseError}
    (h : readU32BE input pos = .error e) :
    e = .eof pos 4 ∧ input.length < pos + 4 := by
  unfold readU32BE at h
  cases hr : readExact input pos 4 with
  | error e2 =>
    rw [hr] at h
    simp only [Except.error.injEq] at h
    exact h ▸ readExact_error hr
  | ok lp => obtain ⟨l, q⟩ := lp; rw [hr] at h; cases h

theorem step_ok {α β : Type} {x : Except ParseError (α × Nat)}
    {f : α → Nat → Except ParseError β} {b : β} (h : step x f = .ok b) :
    ∃ a pos, x = .ok (a, pos) ∧ f a pos = .ok b := by
  cases x with
  | error e => exact absurd h (by simp [step])
  | ok ap =>
    obtain ⟨a, pos⟩ := ap
    exact ⟨a, pos, rfl, h⟩

theorem step_error {α β : Type} {x : Except ParseError (α × Nat)}
    {f : α → Nat → Except ParseError β} {e : ParseError} (h : step x f = .error e) :
    x = .error e ∨ ∃ a pos, x = .ok (a, pos) ∧ f a pos = .error e := by
  cases x with
  | error e2 =>
    have h2 : e2 = e := by simpa [step] using h
    exact Or.inl (by rw [h2])
  | ok ap =>
    obtain ⟨a, pos⟩ := ap
    exact Or.inr ⟨a, pos, rfl, h⟩

theorem get_file_type_ok {input : List Nat} {pos p : Nat} {t : SidType}
    (h : get_file_type input pos = .ok (t, p)) : p = pos + 4 ∧ pos + 4 ≤ input.length := by
  unfold get_file_type at h
  cases hr : readU32BE input pos with
  | error e => rw [hr] at h; cases h
  | ok vp =>
    obtain ⟨v, q⟩ := vp
    rw [hr] at h
    obtain ⟨hq, hle, _⟩ := readU32BE_ok hr
    repeat' split at h
    all_goals simp_all

theorem get_file_type_eof {input : List Nat} {pos q n : Nat}
    (h : get_file_type input pos = .error (.eof q n)) :
    q = pos ∧ input.length < pos + n := by
  unfold get_file_type at h
  cases hr : readU32BE input pos with
  | error e =>
    rw [hr] at h
    simp only [Except.error.injEq] at h
    subst h
    obtain ⟨he, hlt⟩ := readU32BE_error hr
    simp only [ParseError.eof.injEq] at he
    exact ⟨he.1, by omega⟩
  | ok vp =>
    obtain ⟨v, p⟩ := vp
    rw [hr] at h
    repeat' split at h
    all_goals simp_all

theorem get_version_ok {input : List Nat} {pos p : Nat} {ft : SidType} {ver : Version}
    (h : get_version input pos ft = .ok (ver, p)) : p = pos + 2 ∧ pos + 2 ≤ input.length := by
  unfold get_version at h
  cases hr : readU16BE input pos with
  | error e => rw [hr] at h; cases h
  | ok vp =>
    obtain ⟨v, q⟩ := vp
    rw [hr] at h
    obtain ⟨hq, hle, _⟩ := readU16BE_ok hr
    repeat' split at h
    all_goals simp_all

theorem get_version_eof {input : List Nat} {pos q n : Nat} {ft : SidType}
    (h : get_version input pos ft = .error (.eof q n)) :
    q = pos ∧ input.length < pos + n := by
  unfold get_version at h
  cases hr : readU16BE input pos with
  | error e =>
    rw [hr] at h
    simp only [Except.error.injEq] at h
    subst h
    obtain ⟨he, hlt⟩ := readU16BE_error hr
    simp only [ParseError.eof.injEq] at he
    exact ⟨he.1, by omega⟩
  | ok vp =>
    obtain ⟨v, p⟩ := vp
    rw [hr] at h
    repeat' split at h
    all_goals simp_all

theorem get_data_offset_ok {input : List Nat} {pos v p : Nat} {ver : Version}
    (h : get_data_offset input pos ver = .ok (v, p)) : p = pos + 2 ∧ pos + 2 ≤ input.length := by
  unfold get_data_offset at h
  cases hr : readU16BE input pos with
  | error e => rw [hr] at h; cases h
  | ok vp =>
    obtain ⟨w, q⟩ := vp
    rw [hr] at h
    obtain ⟨hq, hle, _⟩ := readU16BE_ok hr
    repeat' split at h
    all_goals simp_all

theorem get_data_offset_eof {input : List Nat} {pos q n : Nat} {ver : Version}
    (h : get_data_offset input pos ver = .error (.eof q n)) :
    q = pos ∧ input.length < pos + n := by
  unfold get_data_offset at h
  cases hr : readU16BE input pos with
  | error e =>
    rw [hr] at h
    simp only [Except.error.injEq] at h
    subst h
    obtain ⟨he, hlt⟩ := readU16BE_error hr
    simp only [ParseError.eof.injEq] at he
    exact ⟨he.1, by omega⟩
  | ok vp =>
    obtain ⟨v, p⟩ := vp
    rw [hr] at h
    repeat' split at h
    all_goals simp_all

theorem get_load_address_ok {input : List Nat} {pos v p : Nat}
    (h : get_load_address input pos = .ok (v, p)) : p = pos + 2 ∧ pos + 2 ≤ input.length := by
  unfold get_load_address at h
  obtain ⟨a, b, _⟩ := readU16BE_ok h
  exact ⟨a, b⟩

theorem get_load_address_eof {input : List Nat} {pos q n : Nat}
    (h : get_load_address input pos = .error (.eof q n)) :
    q = pos ∧ input.length < pos + n := by
  unfold get_load_address at h
  obtain ⟨he, hlt⟩ := readU16BE_error h
  simp only [ParseError.eof.injEq] at he
  exact ⟨he.1, by omega⟩

theorem get_real_load_address_ok {input : List Nat} {pos v p : Nat}
    (h : get_real_load_address input pos = .ok (v, p)) :
    p = pos + 2 ∧ pos + 2 ≤ input.length := by
  unfold get_real_load_address at h
  obtain ⟨a, b, _⟩ := readU16LE_ok h
  exact ⟨a, b⟩

theorem get_real_load_address_eof {input : List Nat} {pos q n : Nat}
    (h : get_real_load_address input pos = .error (.eof q n)) :
    q = pos ∧ input.length < pos + n := by
  unfold get_real_load_address at h
  obtain ⟨he, hlt⟩ := readU16LE_error h
  simp only [ParseError.eof.injEq] at he
  exact ⟨he.1, by omega⟩

theorem get_init_address_ok {input : List Nat} {pos v p : Nat} {ft : SidType}
    (h : get_init_address input pos ft = .ok (v, p)) : p = pos + 2 ∧ pos + 2 ≤ input.length := by
  unfold get_init_address at h
  cases hr : readU16BE input pos with
  | error e => rw [hr] at h; cases h
  | ok vp =>
    obtain ⟨w, q⟩ := vp
    rw [hr] at h
    obtain ⟨hq, hle, _⟩ := readU16BE_ok hr
    repeat' split at h
    all_goals simp_all

theorem get_init_address_eof {input : List Nat} {pos q n : Nat} {ft : SidType}
    (h : get_init_address input pos ft = .error (.eof q n)) :
    q = pos ∧ input.length < pos + n := by
  unfold get_init_address at h
  cases hr : readU16BE input pos with
  | error e =>
    rw [hr] at h
    simp only [Except.error.injEq] at h
    subst h
    obtain ⟨he, hlt⟩ := readU16BE_error hr
    simp only [ParseError.eof.injEq] at he
    exact ⟨he.1, by omega⟩
  | ok vp =>
    obtain ⟨v, p⟩ := vp
    rw [hr] at h
    repeat' split at h
    all_goals simp_all

theorem get_play_address_ok {input : List Nat} {pos v p : Nat} {ft : SidType}
    (h : get_play_address input pos ft = .ok (v, p)) : p = pos + 2 ∧ pos + 2 ≤ input.length := by
  unfold get_play_address at h
  cases hr : readU16BE input pos with
  | error e => rw [hr] at h; cases h
  | ok vp =>
    obtain ⟨w, q⟩ := vp
    rw [hr] at h
    obtain ⟨hq, hle, _⟩ := readU16BE_ok hr
    repeat' split at h
    all_goals simp_all

theorem get_play_address_eof {input : List Nat} {pos q n : Nat} {ft : SidType}
    (h : get_play_address input pos ft = .error (.eof q n)) :
    q = pos ∧ input.length < pos + n := by
  unfold get_play_address at h
  cases hr : readU16BE input pos with
  | error e =>
    rw [hr] at h
    simp only [Except.error.injEq] at h
    subst h
    obtain ⟨he, hlt⟩ := readU16BE_error hr
    simp only [ParseError.eof.injEq] at he
    exact ⟨he.1, by omega⟩
  | ok vp =>
    obtain ⟨v, p⟩ := vp
    rw [hr] at h
    repeat' split at h
    all_goals simp_all

theorem get_songs_ok {input : List Nat} {pos v p : Nat}
    (h : get_songs input pos = .ok (v, p)) : p = pos + 2 ∧ pos + 2 ≤ input.length := by
  unfold get_songs at h
  cases hr : readU16BE input pos with
  | error e => rw [hr] at h; cases h
  | ok vp =>
    obtain ⟨w, q⟩ := vp
    rw [hr] at h
    obtain ⟨hq, hle, _⟩ := readU16BE_ok hr
    repeat' split at h
    all_goals simp_all

theorem get_songs_eof {input : List Nat} {pos q n : Nat}
    (h : get_songs input pos = .error (.eof q n)) :
    q = pos ∧ input.length < pos + n := by
  unfold get_songs at h
  cases hr : readU16BE input pos with
  | error e =>
    rw [hr] at h
    simp only [Except.error.injEq] at h
    subst h
    obtain ⟨he, hlt⟩ := readU16BE_error hr
    simp only [ParseError.eof.injEq] at he
    exact ⟨he.1, by omega⟩
  | ok vp =>
    obtain ⟨v, p⟩ := vp
    rw [hr] at h
    repeat' split at h
    all_goals simp_all

theorem get_start_song_ok {input : List Nat} {pos songs v p : Nat}
    (h : get_start_song input pos songs = .ok (v, p)) :
    p = pos + 2 ∧ pos + 2 ≤ input.length := by
  unfold get_start_song at h
  cases hr : readU16BE input pos with
  | error e => rw [hr] at h; cases h
  | ok vp =>
    obtain ⟨w, q⟩ := vp
    rw [hr] at h
    obtain ⟨hq, hle, _⟩ := readU16BE_ok hr
    repeat' split at h
    all_goals simp_all

theorem get_start_song_eof {input : List Nat} {pos songs q n : Nat}
    (h : get_start_song input pos songs = .error (.eof q n)) :
    q = pos ∧ input.length < pos + n := by
  unfold get_start_song at h
  cases hr : readU16BE input pos with
  | error e =>
    rw [hr] at h
    simp only [Except.error.injEq] at h
    subst h
    obtain ⟨he, hlt⟩ := readU16BE_error hr
    simp only [ParseError.eof.injEq] at he
    exact ⟨he.1, by omega⟩
  | ok vp =>
    obtain ⟨v, p⟩ := vp
    rw [hr] at h
    repeat' split at h
    all_goals simp_all

theorem get_speed_ok {input : List Nat} {pos v p : Nat} {ft : SidType}
    (h : get_speed input pos ft = .ok (v, p)) : p = pos + 4 ∧ pos + 4 ≤ input.length := by
  unfold get_speed at h
  cases hr : readU32BE input pos with
  | error e => rw [hr] at h; cases h
  | ok vp =>
    obtain ⟨w, q⟩ := vp
    rw [hr] at h
    obtain ⟨hq, hle, _⟩ := readU32BE_ok hr
    repeat' split at h
    all_goals simp_all

theorem get_speed_eof {input : List Nat} {pos q n : Nat} {ft : SidType}
    (h : get_speed input pos ft = .error (.eof q n)) :
    q = pos ∧ input.length < pos + n := by
  unfold get_speed at h
  cases hr : readU32BE input pos with
  | error e =>
    rw [hr] at h
    simp only [Except.error.injEq] at h
    subst h
    obtain ⟨he, hlt⟩ := readU32BE_error hr
    simp only [ParseError.eof.injEq] at he
    exact ⟨he.1, by omega⟩
  | ok vp =>
    obtain ⟨v, p⟩ := vp
    rw [hr] at h
    repeat' split at h
    all_goals simp_all

theorem get_name_ok {input : List Nat} {pos p : Nat} {s : List Nat}
    (h : get_name input pos = .ok (s, p)) :
    p = pos + 32 ∧ pos + 32 ≤ input.length ∧
      s = trimNulEnds (from_utf8_lossy ((input.drop pos).take 32)) := by
  unfold get_name at h
  cases hr : readExact input pos 32 with
  | error e => rw [hr] at h; cases h
  | ok lp =>
    obtain ⟨l, q⟩ := lp
    rw [hr] at h
    simp only [Except.ok.injEq, Prod.mk.injEq] at h
    obtain ⟨h1, h2⟩ := h
    obtain ⟨hq, hle, hl⟩ := readExact_ok hr
    exact ⟨h2 ▸ hq, hle, by rw [← h1, hl]⟩

theorem get_name_eof {input : List Nat} {pos q n : Nat}
    (h : get_name input pos = .error (.eof q n)) :
    q = pos ∧ input.length < pos + n := by
  unfold get_name at h
  cases hr : readExact input pos 32 with
  | error e =>
    rw [hr] at h
    simp only [Except.error.injEq] at h
    subst h
    obtain ⟨he, hlt⟩ := readExact_error hr
    simp only [ParseError.eof.injEq] at he
    exact ⟨he.1, by omega⟩
  | ok lp => obtain ⟨l, p⟩ := lp; rw [hr] at h; cases h

theorem get_author_ok {input : List Nat} {pos p : Nat} {s : List Nat}
    (h : get_author input pos = .ok (s, p)) :
    p = pos + 32 ∧ pos + 32 ≤ input.length ∧
      s = trimNulEnds (from_utf8_lossy ((input.drop pos).take 32)) := by
  unfold get_author at h
  cases hr : readExact input pos 32 with
  | error e => rw [hr] at h; cases h
  | ok lp =>
    obtain ⟨l, q⟩ := lp
    rw [hr] at h
    simp only [Except.ok.injEq, Prod.mk.injEq] at h
    obtain ⟨h1, h2⟩ := h
    obtain ⟨hq, hle, hl⟩ := readExact_ok hr
    exact ⟨h2 ▸ hq, hle, by rw [← h1, hl]⟩

theorem get_author_eof {input : List Nat} {pos q n : Nat}
    (h : get_author input pos = .error (.eof q n)) :
    q = pos ∧ input.length < pos + n := by
  unfold get_author at h
  cases hr : readExact input pos 32 with
  | error e =>
    rw [hr] at h
    simp only [Except.error.injEq] at h
    subst h
    obtain ⟨he, hlt⟩ := readExact_error hr
    simp only [ParseError.eof.injEq] at he
    exact ⟨he.1, by omega⟩
  | ok lp => obtain ⟨l, p⟩ := lp; rw [hr] at h; cases h

theorem get_released_ok {input : List Nat} {pos p : Nat} {s : List Nat}
    (h : get_released input pos = .ok (s, p)) :
    p = pos + 32 ∧ pos + 32 ≤ input.length ∧
      s = trimNulEnds (from_utf8_lossy ((input.drop pos).take 32)) := by
  unfold get_released at h
  cases hr : readExact input pos 32 with
  | error e => rw [hr] at h; cases h
  | ok lp =>
    obtain ⟨l, q⟩ := lp
    rw [hr] at h
    simp only [Except.ok.injEq, Prod.mk.injEq] at h
    obtain ⟨h1, h2⟩ := h
    obtain ⟨hq, hle, hl⟩ := readExact_ok hr
    exact ⟨h2 ▸ hq, hle, by rw [← h1, hl]⟩

theorem get_released_eof {input : List Nat} {pos q n : Nat}
    (h : get_released input pos = .error (.eof q n)) :
    q = pos ∧ input.length < pos + n := by
  unfold get_released at h
  cases hr : readExact input pos 32 with
  | error e =>
    rw [hr] at h
    simp only [Except.error.injEq] at h
    subst h
    obtain ⟨he, hlt⟩ := readExact_error hr
    simp only [ParseError.eof.injEq] at he
    exact ⟨he.1, by omega⟩
  | ok lp => obtain ⟨l, p⟩ := lp; rw [hr] at h; cases h

theorem get_flags_ok {input : List Nat} {pos p : Nat} {fl : Flags}
    (h : get_flags input pos = .ok (fl, p)) : p = pos + 2 ∧ pos + 2 ≤ input.length := by
  unfold get_flags at h
  cases hr : readU16BE input pos with
  | error e => rw [hr] at h; cases h
  | ok vp =>
    obtain ⟨w, q⟩ := vp
    rw [hr] at h
    obtain ⟨hq, hle, _⟩ := readU16BE_ok hr
    simp only at h
    repeat' split at h
    all_goals simp_all

theorem get_flags_eof {input : List Nat} {pos q n : Nat}
    (h : get_flags input pos = .error (.eof q n)) :
    q = pos ∧ input.length < pos + n := by
  unfold get_flags at h
  cases hr : readU16BE input pos with
  | error e =>
    rw [hr] at h
    simp only [Except.error.injEq] at h
    subst h
    obtain ⟨he, hlt⟩ := readU16BE_error hr
    simp only [ParseError.eof.injEq] at he
    exact ⟨he.1, by omega⟩
  | ok vp =>
    obtain ⟨v, p⟩ := vp
    rw [hr] at h
    simp only at h
    repeat' split at h
    all_goals simp_all

theorem get_start_page_ok {input : List Nat} {pos v p : Nat}
    (h : get_start_page input pos = .ok (v, p)) : p = pos + 1 ∧ pos + 1 ≤ input.length := by
  unfold get_start_page at h
  obtain ⟨a, b, _⟩ := readU8_ok h
  exact ⟨a, b⟩

theorem get_start_page_eof {input : List Nat} {pos q n : Nat}
    (h : get_start_page input pos = .error (.eof q n)) :
    q = pos ∧ input.length < pos + n := by
  unfold get_start_page at h
  obtain ⟨he, hlt⟩ := readU8_error h
  simp only [ParseError.eof.injEq] at he
  exact ⟨he.1, by omega⟩

theorem get_page_length_ok {input : List Nat} {pos v p : Nat}
    (h : get_page_length input pos = .ok (v, p)) : p = pos + 1 ∧ pos + 1 ≤ input.length := by
  unfold get_page_length at h
  obtain ⟨a, b, _⟩ := readU8_ok h
  exact ⟨a, b⟩

theorem get_page_length_eof {input : List Nat} {pos q n : Nat}
    (h : get_page_length input pos = .error (.eof q n)) :
    q = pos ∧ input.length < pos + n := by
  unfold get_page_length at h
  obtain ⟨he, hlt⟩ := readU8_error h
  simp only [ParseError.eof.injEq] at he
  exact ⟨he.1, by omega⟩

theorem get_sid_address_ok {input : List Nat} {pos v p : Nat}
    (h : get_sid_address input pos = .ok (v, p)) : p = pos + 1 ∧ pos + 1 ≤ input.length := by
  unfold get_sid_address at h
  obtain ⟨a, b, _⟩ := readU8_ok h
  exact ⟨a, b⟩

theorem get_sid_address_eof {input : List Nat} {pos q n : Nat}
    (h : get_sid_address input pos = .error (.eof q n)) :
    q = pos ∧ input.length < pos + n := by
  unfold get_sid_address at h
  obtain ⟨he, hlt⟩ := readU8_error h
  simp only [ParseError.eof.injEq] at he
  exact ⟨he.1, by omega⟩

theorem get_file_type_val {input : List Nat} {pos p : Nat} {t : SidType}
    (h : get_file_type input pos = .ok (t, p)) : t = .RSID ∨ t = .PSID := by
  unfold get_file_type at h
  cases hr : readU32BE input pos with
  | error e => rw [hr] at h; cases h
  | ok vp =>
    obtain ⟨v, q⟩ := vp
    rw [hr] at h
    repeat' split at h
    all_goals simp_all

theorem tailV1_char {input : List Nat} {pos : Nat} {ft : SidType} {ver : Version}
    {doff la ia pa sg ss sp : Nat} {nm au rel : List Nat} {p : SidFile}
    (h : (step (get_real_load_address input pos) fun real_load_address pos =>
          step (get_data input pos) fun data _ =>
            .ok ⟨ft, ver, doff, la, ia, pa, sg, ss, sp, nm, au, rel,
              none, none, none, none, none, real_load_address, data⟩) = .ok p) :
    pos + 2 ≤ input.length ∧
    ∃ rl, p = ⟨ft, ver, doff, la, ia, pa, sg, ss, sp, nm, au, rel,
      none, none, none, none, none, rl, input.drop (pos + 2)⟩ := by
  obtain ⟨rl, pos1, h1, h⟩ := step_ok h
  obtain ⟨hp1, hl1⟩ := get_real_load_address_ok h1
  subst hp1
  obtain ⟨data, pos2, h2, h⟩ := step_ok h
  simp only [get_data, Except.ok.injEq, Prod.mk.injEq] at h2
  obtain ⟨hd, _⟩ := h2
  simp only [Except.ok.injEq] at h
  subst h
  exact ⟨hl1, rl, by rw [← hd]⟩

theorem tailExt_char {input : List Nat} {pos : Nat} {ft : SidType} {ver : Version}
    {doff la ia pa sg ss sp : Nat} {nm au rel : List Nat} {p : SidFile}
    (h : (step (get_flags input pos) fun flags pos =>
          step (get_start_page input pos) fun start_page pos =>
          step (get_page_length input pos) fun page_length pos =>
          step (get_sid_address input pos) fun second_sid_address pos =>
          step (get_sid_address input pos) fun third_sid_address pos =>
          step (get_real_load_address input pos) fun real_load_address pos =>
          step (get_data input pos) fun data _ =>
            .ok ⟨ft, ver, doff, la, ia, pa, sg, ss, sp, nm, au, rel,
              some flags, some start_page, some page_length,
              some second_sid_address, some third_sid_address, real_load_address, data⟩)
          = .ok p) :
    pos + 8 ≤ input.length ∧
    ∃ fl spg plen s2 s3 rl, p = ⟨ft, ver, doff, la, ia, pa, sg, ss, sp, nm, au, rel,
      some fl, some spg, some plen, some s2, some s3, rl, input.drop (pos + 8)⟩ := by
  obtain ⟨fl, pos1, h1, h⟩ := step_ok h
  obtain ⟨hp1, hl1⟩ := get_flags_ok h1
  subst hp1
  obtain ⟨spg, pos2, h2, h⟩ := step_ok h
  obtain ⟨hp2, hl2⟩ := get_start_page_ok h2
  subst hp2
  obtain ⟨plen, pos3, h3, h⟩ := step_ok h
  obtain ⟨hp3, hl3⟩ := get_page_length_ok h3
  subst hp3
  obtain ⟨s2, pos4, h4, h⟩ := step_ok h
  obtain ⟨hp4, hl4⟩ := get_sid_address_ok h4
  subst hp4
  obtain ⟨s3, pos5, h5, h⟩ := step_ok h
  obtain ⟨hp5, hl5⟩ := get_sid_address_ok h5
  subst hp5
  obtain ⟨rl, pos6, h6, h⟩ := step_ok h
  obtain ⟨hp6, hl6⟩ := get_real_load_address_ok h6
  subst hp6
  obtain ⟨data, pos7, h7, h⟩ := step_ok h
  simp only [get_data, Except.ok.injEq, Prod.mk.injEq] at h7
  obtain ⟨hd, _⟩ := h7
  simp only [Except.ok.injEq] at h
  subst h
  have ha : pos + 2 + 1 + 1 + 1 + 1 + 2 = pos + 8 := by omega
  rw [ha] at hd hl6
  exact ⟨hl6, fl, spg, plen, s2, s3, rl, by rw [← hd]⟩

/-- Characterization of every successful parse: the container kind is RSID
or PSID, the three text fields are the trimmed lossy decode of their fixed
32-byte slots, and the version branch fixes the optional fields and the
payload position jointly. -/
theorem parse_ok_char {input : List Nat} {p : SidFile} (h : parse input = .ok p) :
    (p.file_type = .RSID ∨ p.file_type = .PSID) ∧
    p.name = trimNulEnds (from_utf8_lossy ((input.drop 22).take 32)) ∧
    p.author = trimNulEnds (from_utf8_lossy ((input.drop 54).take 32)) ∧
    p.released = trimNulEnds (from_utf8_lossy ((input.drop 86).take 32)) ∧
    ((p.version = .V1 ∧ p.flags = none ∧ p.start_page = none ∧ p.page_length = none ∧
        p.second_sid_address = none ∧ p.third_sid_address = none ∧
        120 ≤ input.length ∧ p.data = input.drop 120) ∨
      (p.version ≠ .V1 ∧ (∃ x, p.flags = some x) ∧ (∃ x, p.start_page = some x) ∧
        (∃ x, p.page_length = some x) ∧ (∃ x, p.second_sid_address = some x) ∧
        (∃ x, p.third_sid_address = some x) ∧
        126 ≤ input.length ∧ p.data = input.drop 126)) := by
  unfold parse at h
  obtain ⟨ft, pos1, h1, h⟩ := step_ok h
  obtain ⟨hp1, hl1⟩ := get_file_type_ok h1
  have e1 : pos1 = 4 := by omega
  subst e1
  obtain ⟨ver, pos2, h2, h⟩ := step_ok h
  obtain ⟨hp2, hl2⟩ := get_version_ok h2
  have e2 : pos2 = 6 := by omega
  subst e2
  obtain ⟨doff, pos3, h3, h⟩ := step_ok h
  obtain ⟨hp3, hl3⟩ := get_data_offset_ok h3
  have e3 : pos3 = 8 := by omega
  subst e3
  obtain ⟨la, pos4, h4, h⟩ := step_ok h
  obtain ⟨hp4, hl4⟩ := get_load_address_ok h4
  have e4 : pos4 = 10 := by omega
  subst e4
  obtain ⟨ia, pos5, h5, h⟩ := step_ok h
  obtain ⟨hp5, hl5⟩ := get_init_address_ok h5
  have e5 : pos5 = 12 := by omega
  subst e5
  obtain ⟨pa, pos6, h6, h⟩ := step_ok h
  obtain ⟨hp6, hl6⟩ := get_play_address_ok h6
  have e6 : pos6 = 14 := by omega
  subst e6
  obtain ⟨sg, pos7, h7, h⟩ := step_ok h
  obtain ⟨hp7, hl7⟩ := get_songs_ok h7
  have e7 : pos7 = 16 := by omega
  subst e7
  obtain ⟨ss, pos8, h8, h⟩ := step_ok h
  obtain ⟨hp8, hl8⟩ := get_start_song_ok h8
  have e8 : pos8 = 18 := by omega
  subst e8
  obtain ⟨sp, pos9, h9, h⟩ := step_ok h
  obtain ⟨hp9, hl9⟩ := get_speed_ok h9
  have e9 : pos9 = 22 := by omega
  subst e9
  obtain ⟨nm, pos10, h10, h⟩ := step_ok h
  obtain ⟨hp10, hl10, hnv⟩ := get_name_ok h10
  have e10 : pos10 = 54 := by omega
  subst e10
  obtain ⟨au, pos11, h11, h⟩ := step_ok h
  obtain ⟨hp11, hl11, hav⟩ := get_author_ok h11
  have e11 : pos11 = 86 := by omega
  subst e11
  obtain ⟨rel, pos12, h12, h⟩ := step_ok h
  obtain ⟨hp12, hl12, hrv⟩ := get_released_ok h12
  have e12 : pos12 = 118 := by omega
  subst e12
  cases ver with
  | V1 =>
    obtain ⟨hle, rl, hp⟩ := tailV1_char h
    subst hp
    exact ⟨get_file_type_val h1, hnv, hav, hrv,
      Or.inl ⟨rfl, rfl, rfl, rfl, rfl, rfl, by omega, by norm_num⟩⟩
  | V2 =>
    obtain ⟨hle, fl, spg, plen, s2, s3, rl, hp⟩ := tailExt_char h
    subst hp
    exact ⟨get_file_type_val h1, hnv, hav, hrv,
      Or.inr ⟨by simp, ⟨fl, rfl⟩, ⟨spg, rfl⟩, ⟨plen, rfl⟩, ⟨s2, rfl⟩, ⟨s3, rfl⟩,
        by omega, by norm_num⟩⟩
  | V3 =>
    obtain ⟨hle, fl, spg, plen, s2, s3, rl, hp⟩ := tailExt_char h
    subst hp
    exact ⟨get_file_type_val h1, hnv, hav, hrv,
      Or.inr ⟨by simp, ⟨fl, rfl⟩, ⟨spg, rfl⟩, ⟨plen, rfl⟩, ⟨s2, rfl⟩, ⟨s3, rfl⟩,
        by omega, by norm_num⟩⟩
  | V4 =>
    obtain ⟨hle, fl, spg, plen, s2, s3, rl, hp⟩ := tailExt_char h
    subst hp
    exact ⟨get_file_type_val h1, hnv, hav, hrv,
      Or.inr ⟨by simp, ⟨fl, rfl⟩, ⟨spg, rfl⟩, ⟨plen, rfl⟩, ⟨s2, rfl⟩, ⟨s3, rfl⟩,
        by omega, by norm_num⟩⟩

theorem tailV1_eof {input : List Nat} {pos q n : Nat} {ft : SidType} {ver : Version}
    {doff la ia pa sg ss sp : Nat} {nm au rel : List Nat}
    (hpos : pos ≤ input.length)
    (h : (step (get_real_load_address input pos) fun real_load_address pos =>
          step (get_data input pos) fun data _ =>
            .ok (⟨ft, ver, doff, la, ia, pa, sg, ss, sp, nm, au, rel,
              none, none, none, none, none, real_load_address, data⟩ : SidFile))
          = .error (.eof q n)) :
    q ≤ input.length ∧ input.length < q + n := by
  rcases step_error h with h1 | ⟨rl, pos1, h1, h⟩
  · obtain ⟨he, hb⟩ := get_real_load_address_eof h1
    constructor <;> omega
  · rcases step_error h with h2 | ⟨d, pos2, h2, h⟩
    · simp [get_data] at h2
    · exact absurd h (by simp)

theorem tailExt_eof {input : List Nat} {pos q n : Nat} {ft : SidType} {ver : Version}
    {doff la ia pa sg ss sp : Nat} {nm au rel : List Nat}
    (hpos : pos ≤ input.length)
    (h : (step (get_flags input pos) fun flags pos =>
          step (get_start_page input pos) fun start_page pos =>
          step (get_page_length input pos) fun page_length pos =>
          step (get_sid_address input pos) fun second_sid_address pos =>
          step (get_sid_address input pos) fun third_sid_address pos =>
          step (get_real_load_address input pos) fun real_load_address pos =>
          step (get_data input pos) fun data _ =>
            .ok (⟨ft, ver, doff, la, ia, pa, sg, ss, sp, nm, au, rel,
              some flags, some start_page, some page_length,
              some second_sid_address, some third_sid_address, real_load_address, data⟩ : SidFile))
          = .error (.eof q n)) :
    q ≤ input.length ∧ input.length < q + n := by
  rcases step_error h with h1 | ⟨fl, pos1, h1, h⟩
  · obtain ⟨he, hb⟩ := get_flags_eof h1
    constructor <;> omega
  · obtain ⟨hp1, hl1⟩ := get_flags_ok h1
    rcases step_error h with h2 | ⟨spg, pos2, h2, h⟩
    · obtain ⟨he, hb⟩ := get_start_page_eof h2
      constructor <;> omega
    · obtain ⟨hp2, hl2⟩ := get_start_page_ok h2
      rcases step_error h with h3 | ⟨plen, pos3, h3, h⟩
      · obtain ⟨he, hb⟩ := get_page_length_eof h3
        constructor <;> omega
      · obtain ⟨hp3, hl3⟩ := get_page_length_ok h3
        rcases step_error h with h4 | ⟨s2, pos4, h4, h⟩
        · obtain ⟨he, hb⟩ := get_sid_address_eof h4
          constructor <;> omega
        · obtain ⟨hp4, hl4⟩ := get_sid_address_ok h4
          rcases step_error h with h5 | ⟨s3, pos5, h5, h⟩
          · obtain ⟨he, hb⟩ := get_sid_address_eof h5
            constructor <;> omega
          · obtain ⟨hp5, hl5⟩ := get_sid_address_ok h5
            rcases step_error h with h6 | ⟨rl, pos6, h6, h⟩
            · obtain ⟨he, hb⟩ := get_real_load_address_eof h6
              constructor <;> omega
            · rcases step_error h with h7 | ⟨d, pos7, h7, h⟩
              · simp [get_data] at h7
              · exact absurd h (by simp)

/-- Characterization of every truncation failure of parse: the recorded
position is the end of the fully consumed fields (so no earlier field was
cut short and nothing past the end of the buffer was read) and the
requested byte count overruns the input. -/
theorem parse_eof_char {input : List Nat} {q n : Nat}
    (h : parse input = .error (.eof q n)) : q ≤ input.length ∧ input.length < q + n := by
  unfold parse at h
  rcases step_error h with h1 | ⟨ft, pos1, h1, h⟩
  · obtain ⟨he, hb⟩ := get_file_type_eof h1
    constructor <;> omega
  · obtain ⟨hp1, hl1⟩ := get_file_type_ok h1
    rcases step_error h with h2 | ⟨ver, pos2, h2, h⟩
    · obtain ⟨he, hb⟩ := get_version_eof h2
      constructor <;> omega
    · obtain ⟨hp2, hl2⟩ := get_version_ok h2
      rcases step_error h with h3 | ⟨doff, pos3, h3, h⟩
      · obtain ⟨he, hb⟩ := get_data_offset_eof h3
        constructor <;> omega
      · obtain ⟨hp3, hl3⟩ := get_data_offset_ok h3
        rcases step_error h with h4 | ⟨la, pos4, h4, h⟩
        · obtain ⟨he, hb⟩ := get_load_address_eof h4
          constructor <;> omega
        · obtain ⟨hp4, hl4⟩ := get_load_address_ok h4
          rcases step_error h with h5 | ⟨ia, pos5, h5, h⟩
          · obtain ⟨he, hb⟩ := get_init_address_eof h5
            constructor <;> omega
          · obtain ⟨hp5, hl5⟩ := get_init_address_ok h5
            rcases step_error h with h6 | ⟨pa, pos6, h6, h⟩
            · obtain ⟨he, hb⟩ := get_play_address_eof h6
              constructor <;> omega
            · obtain ⟨hp6, hl6⟩ := get_play_address_ok h6
              rcases step_error h with h7 | ⟨sg, pos7, h7, h⟩
              · obtain ⟨he, hb⟩ := get_songs_eof h7
                constructor <;> omega
              · obtain ⟨hp7, hl7⟩ := get_songs_ok h7
                rcases step_error h with h8 | ⟨ss, pos8, h8, h⟩
                · obtain ⟨he, hb⟩ := get_start_song_eof h8
                  constructor <;> omega
                · obtain ⟨hp8, hl8⟩ := get_start_song_ok h8
                  rcases step_error h with h9 | ⟨sp, pos9, h9, h⟩
                  · obtain ⟨he, hb⟩ := get_speed_eof h9
                    constructor <;> omega
                  · obtain ⟨hp9, hl9⟩ := get_speed_ok h9
                    rcases step_error h with h10 | ⟨nm, pos10, h10, h⟩
                    · obtain ⟨he, hb⟩ := get_name_eof h10
                      constructor <;> omega
                    · obtain ⟨hp10, hl10, _⟩ := get_name_ok h10
                      rcases step_error h with h11 | ⟨au, pos11, h11, h⟩
                      · obtain ⟨he, hb⟩ := get_author_eof h11
                        constructor <;> omega
                      · obtain ⟨hp11, hl11, _⟩ := get_author_ok h11
                        rcases step_error h with h12 | ⟨rel, pos12, h12, h⟩
                        · obtain ⟨he, hb⟩ := get_released_eof h12
                          constructor <;> omega
                        · obtain ⟨hp12, hl12, _⟩ := get_released_ok h12
                          cases ver with
                          | V1 => exact tailV1_eof (by omega) h
                          | V2 => exact tailExt_eof (by omega) h
                          | V3 => exact tailExt_eof (by omega) h
                          | V4 => exact tailExt_eof (by omega) h

theorem takeWhile_zero_eq_replicate (l : List Nat) :
    l.takeWhile (· == 0) = List.replicate (l.takeWhile (· == 0)).length (0 : Nat) := by
  induction l with
  | nil => rfl
  | cons a t ih =>
    by_cases ha : a = 0
    · subst ha
      simpa [List.takeWhile_cons, List.replicate_succ] using ih
    · simp [List.takeWhile_cons, ha]

theorem dropWhile_zero_sandwich (l : List Nat) :
    ∃ a, l = List.replicate a (0 : Nat) ++ l.dropWhile (· == 0) := by
  refine ⟨(l.takeWhile (· == 0)).length, ?_⟩
  conv_lhs => rw [← List.takeWhile_append_dropWhile (fun b => b == 0) l]
  rw [← takeWhile_zero_eq_replicate]

theorem trimNulEnds_decomp (l : List Nat) :
    ∃ a b, l = List.replicate a 0 ++ trimNulEnds l ++ List.replicate b 0 := by
  obtain ⟨a, ha⟩ := dropWhile_zero_sandwich l
  obtain ⟨b, hb⟩ := dropWhile_zero_sandwich (l.dropWhile (· == 0)).reverse
  refine ⟨a, b, ?_⟩
  have h2 : l.dropWhile (· == 0) = trimNulEnds l ++ List.replicate b 0 := by
    have h3 := congrArg List.reverse hb
    simpa [trimNulEnds, List.reverse_append] using h3
  conv_lhs => rw [ha, h2]
  rw [List.append_assoc]

theorem trimNulEnds_of_not_mem {l : List Nat} (h : (0 : Nat) ∉ l) : trimNulEnds l = l := by
  have h1 : l.dropWhile (· == 0) = l := by
    cases l with
    | nil => rfl
    | cons a t =>
      have ha : ¬ a = 0 := fun e => h (by simp [e])
      simp [List.dropWhile_cons, ha]
  have h2 : l.reverse.dropWhile (· == 0) = l.reverse := by
    cases hr : l.reverse with
    | nil => rfl
    | cons a t =>
      have ha : a ∈ l := by
        have hm : a ∈ l.reverse := by rw [hr]; exact List.mem_cons_self a t
        simpa using hm
      have hne : ¬ a = 0 := fun e => h (e ▸ ha)
      simp [List.dropWhile_cons, hne]
  unfold trimNulEnds
  rw [h1, h2, List.reverse_reverse]

theorem readU32BE_eval (input : List Nat) (pos : Nat) (h : pos + 4 ≤ input.length) :
    readU32BE input pos = .ok (beVal ((input.drop pos).take 4), pos + 4) := by
  unfold readU32BE readExact
  rw [if_pos h]

/-- Claim C1 (the code diverges from it): in get_flags the bit vector starts
with a placeholder entry, so every field is taken one bit lower than the
documented layout.  A flags word 0x0001 leaves format untouched (always
InternalPlayer) and instead sets the PlaySID field; word 0x8000 (a reserved
bit per the claim) decodes successfully because bit 15 is never inspected;
word 0x0200 (bit 9, third SID model per the claim) is rejected as invalid. -/
theorem c1_flags_divergence :
    get_flags [0x00, 0x01] 0
      = .ok (⟨.InternalPlayer, .PlaySID, .Unknown, .Unknown, .Unknown, .Unknown⟩, 2) ∧
    get_flags [0x80, 0x00] 0
      = .ok (⟨.InternalPlayer, .C64, .Unknown, .Unknown, .Unknown, .Unknown⟩, 2) ∧
    get_flags [0x02, 0x00] 0 = .error .invalidFlags := by
  decide

/-- Claim C2 counterexample: a successful V2 decode of a 129-byte input has a
3-byte payload, which differs from the claimed length of input minus
0x7C + 9 bytes, both in truncated and in integer subtraction. -/
theorem c2_counterexample :
    parse exV2 = .ok exV2parsed ∧ exV2.length = 129 ∧ exV2parsed.data.length = 3 ∧
    exV2parsed.data.length ≠ exV2.length - (0x7C + 9) ∧
    (exV2parsed.data.length : Int) ≠ (exV2.length : Int) - (0x7C + 9) := by
  decide

/-- Claim C2 (amended): for every input on which decode succeeds, the length
of the data payload equals the total input length minus the header bytes
consumed: 0x76 + 2 for V1 (including the little-endian real load address)
and 0x7C + 2 for V2, V3 and V4. -/
theorem c2_amended (input : List Nat) (p : SidFile) (h : parse input = .ok p) :
    (p.version = .V1 → 0x76 + 2 ≤ input.length ∧
      p.data.length = input.length - (0x76 + 2)) ∧
    (p.version ≠ .V1 → 0x7C + 2 ≤ input.length ∧
      p.data.length = input.length - (0x7C + 2)) := by
  obtain ⟨_, _, _, _, hca⟩ := parse_ok_char h
  rcases hca with ⟨hv, _, _, _, _, _, hle, hdata⟩ | ⟨hv, _, _, _, _, _, hle, hdata⟩
  · refine ⟨fun _ => ⟨by omega, ?_⟩, fun hne => absurd hv hne⟩
    rw [hdata, List.length_drop]
  · refine ⟨fun h1 => absurd h1 hv, fun _ => ⟨by omega, ?_⟩⟩
    rw [hdata, List.length_drop]

/-- Witness for C2 at the concrete V2 input. -/
theorem c2_amended_witness :
    0x7C + 2 ≤ exV2.length ∧ exV2parsed.data.length = exV2.length - (0x7C + 2) :=
  (c2_amended exV2 exV2parsed (by decide)).2 (by decide)

/-- Claim C3 counterexample: on a name slot of NUL, then the letter A, then
NUL padding, decode succeeds with the leading NUL also removed, so the field
is not the decode with only the trailing NUL padding stripped. -/
theorem c3_counterexample :
    parse ex3 = .ok ex3parsed ∧
    ex3parsed.name ≠ trimNulTrailing (from_utf8_lossy ((ex3.drop 0x16).take 32)) := by
  decide

/-- Claim C3 (amended): each of name, author and released equals the lossy
text decode of its fixed 32-byte slot with the leading and the trailing NUL
padding stripped; the removed elements are exactly a NUL prefix and a NUL
suffix of the decode, and a decode containing no NUL is kept unchanged. -/
theorem c3_amended (input : List Nat) (p : SidFile) (h : parse input = .ok p) :
    (p.name = trimNulEnds (from_utf8_lossy ((input.drop 0x16).take 32)) ∧
      (∃ a b, from_utf8_lossy ((input.drop 0x16).take 32)
        = List.replicate a 0 ++ p.name ++ List.replicate b 0) ∧
      ((0 : Nat) ∉ from_utf8_lossy ((input.drop 0x16).take 32) →
        p.name = from_utf8_lossy ((input.drop 0x16).take 32))) ∧
    (p.author = trimNulEnds (from_utf8_lossy ((input.drop 0x36).take 32)) ∧
      (∃ a b, from_utf8_lossy ((input.drop 0x36).take 32)
        = List.replicate a 0 ++ p.author ++ List.replicate b 0) ∧
      ((0 : Nat) ∉ from_utf8_lossy ((input.drop 0x36).take 32) →
        p.author = from_utf8_lossy ((input.drop 0x36).take 32))) ∧
    (p.released = trimNulEnds (from_utf8_lossy ((input.drop 0x56).take 32)) ∧
      (∃ a b, from_utf8_lossy ((input.drop 0x56).take 32)
        = List.replicate a 0 ++ p.released ++ List.replicate b 0) ∧
      ((0 : Nat) ∉ from_utf8_lossy ((input.drop 0x56).take 32) →
        p.released = from_utf8_lossy ((input.drop 0x56).take 32))) := by
  obtain ⟨_, hn, ha, hr, _⟩ := parse_ok_char h
  refine ⟨⟨hn, ?_, ?_⟩, ⟨ha, ?_, ?_⟩, ⟨hr, ?_, ?_⟩⟩
  · obtain ⟨a, b, hd⟩ := trimNulEnds_decomp (from_utf8_lossy ((input.drop 0x16).take 32))
    exact ⟨a, b, by rw [hn]; exact hd⟩
  · intro h0
    rw [hn, trimNulEnds_of_not_mem h0]
  · obtain ⟨a, b, hd⟩ := trimNulEnds_decomp (from_utf8_lossy ((input.drop 0x36).take 32))
    exact ⟨a, b, by rw [ha]; exact hd⟩
  · intro h0
    rw [ha, trimNulEnds_of_not_mem h0]
  · obtain ⟨a, b, hd⟩ := trimNulEnds_decomp (from_utf8_lossy ((input.drop 0x56).take 32))
    exact ⟨a, b, by rw [hr]; exact hd⟩
  · intro h0
    rw [hr, trimNulEnds_of_not_mem h0]

/-- Witness for C3 at the concrete V1 input. -/
theorem c3_amended_witness :
    exV1parsed.name = trimNulEnds (from_utf8_lossy ((exV1.drop 0x16).take 32)) :=
  (c3_amended exV1 exV1parsed (by decide)).1.1

/-- Claim C4: a truncation failure of parse is recorded exactly at the first
field for which too few bytes remain (its position equals the end of the
fully consumed fields, lies within the buffer, and the requested width
overruns the input end); a bounds-checked read fails with eof exactly when
the bytes are missing; and the final payload step never fails, with zero
remaining bytes yielding an empty payload. -/
theorem c4_truncation :
    (∀ (input : List Nat) (q n : Nat), parse input = .error (.eof q n) →
      q ≤ input.length ∧ input.length < q + n) ∧
    (∀ (input : List Nat) (pos n : Nat),
      readExact input pos n = .error (.eof pos n) ↔ input.length < pos + n) ∧
    (∀ (input : List Nat) (pos : Nat),
      get_data input pos = .ok (input.drop pos, input.length)) ∧
    (∀ input : List Nat, get_data input input.length = .ok ([], input.length)) := by
  refine ⟨fun input q n h => parse_eof_char h, fun input pos n => ⟨?_, ?_⟩,
    fun input pos => rfl, fun input => ?_⟩
  · intro h
    exact (readExact_error h).2
  · intro h
    unfold readExact
    rw [if_neg (by omega)]
  · simp [get_data, List.drop_length]

/-- Witness for C4 at the concrete truncated input: the failure is at
position 14 requesting 2 bytes of the 15-byte input. -/
theorem c4_truncation_witness : 14 ≤ ex4.length ∧ ex4.length < 14 + 2 :=
  c4_truncation.1 ex4 14 2 (by decide)

/-- Claim C5: in every successful decode the flags, start page, page length
and the two extra SID address fields are jointly present exactly when the
version is not V1, and jointly absent when it is V1. -/
theorem c5_version_gating (input : List Nat) (p : SidFile) (h : parse input = .ok p) :
    (p.version = .V1 → p.flags = none ∧ p.start_page = none ∧ p.page_length = none ∧
      p.second_sid_address = none ∧ p.third_sid_address = none) ∧
    (p.version ≠ .V1 → (∃ x, p.flags = some x) ∧ (∃ x, p.start_page = some x) ∧
      (∃ x, p.page_length = some x) ∧ (∃ x, p.second_sid_address = some x) ∧
      (∃ x, p.third_sid_address = some x)) := by
  obtain ⟨_, _, _, _, hca⟩ := parse_ok_char h
  rcases hca with ⟨hv, h1, h2, h3, h4, h5, _, _⟩ | ⟨hv, h1, h2, h3, h4, h5, _, _⟩
  · exact ⟨fun _ => ⟨h1, h2, h3, h4, h5⟩, fun hne => absurd hv hne⟩
  · exact ⟨fun he => absurd he hv, fun _ => ⟨h1, h2, h3, h4, h5⟩⟩

/-- Witness for C5 at the concrete V1 input. -/
theorem c5_version_gating_witness :
    exV1parsed.flags = none ∧ exV1parsed.start_page = none ∧ exV1parsed.page_length = none ∧
    exV1parsed.second_sid_address = none ∧ exV1parsed.third_sid_address = none :=
  (c5_version_gating exV1 exV1parsed (by decide)).1 rfl

/-- Claim C6: the magic field accepts exactly the two 32-bit constants, the
RSID constant yielding RSID, the PSID constant yielding PSID, any other
4-byte value failing with the invalid signature error, and every successful
parse carries the RSID or the PSID container kind. -/
theorem c6_magic :
    (∀ (input : List Nat) (t : SidType) (p : Nat), get_file_type input 0 = .ok (t, p) →
      4 ≤ input.length ∧ p = 4 ∧
      ((beVal (input.take 4) = 0x52534944 ∧ t = .RSID) ∨
        (beVal (input.take 4) = 0x50534944 ∧ t = .PSID))) ∧
    (∀ input : List Nat, 4 ≤ input.length → beVal (input.take 4) = 0x52534944 →
      get_file_type input 0 = .ok (.RSID, 4)) ∧
    (∀ input : List Nat, 4 ≤ input.length → beVal (input.take 4) = 0x50534944 →
      get_file_type input 0 = .ok (.PSID, 4)) ∧
    (∀ input : List Nat, 4 ≤ input.length →
      beVal (input.take 4) ≠ 0x52534944 → beVal (input.take 4) ≠ 0x50534944 →
      get_file_type input 0 = .error .invalidFileType) ∧
    (∀ (input : List Nat) (p : SidFile), parse input = .ok p →
      p.file_type = .RSID ∨ p.file_type = .PSID) := by
  refine ⟨?_, ?_, ?_, ?_, fun input p h => (parse_ok_char h).1⟩
  · intro input t p h
    unfold get_file_type at h
    cases hr : readU32BE input 0 with
    | error e => rw [hr] at h; cases h
    | ok vp =>
      obtain ⟨v, q⟩ := vp
      rw [hr] at h
      obtain ⟨hq, hle, hv⟩ := readU32BE_ok hr
      repeat' split at h
      all_goals simp_all [List.drop_zero]
  · intro input hlen hv
    unfold get_file_type
    rw [readU32BE_eval input 0 (by omega)]
    simp [List.drop_zero, hv]
  · intro input hlen hv
    unfold get_file_type
    rw [readU32BE_eval input 0 (by omega)]
    simp [List.drop_zero, hv]
  · intro input hlen hv1 hv2
    unfold get_file_type
    rw [readU32BE_eval input 0 (by omega)]
    simp [List.drop_zero, hv1, hv2]

/-- Witness for C6 at the concrete RSID magic bytes. -/
theorem c6_magic_witness : get_file_type [0x52, 0x53, 0x49, 0x44] 0 = .ok (.RSID, 4) :=
  c6_magic.2.1 [0x52, 0x53, 0x49, 0x44] (by decide) (by decide)

/-- Claim C7: for an input reaching the song count field with two bytes
available, the field succeeds exactly when the big-endian value lies in
the interval from 1 to 256 and fails with the invalid song count error
exactly otherwise. -/
theorem c7_songs_range (input : List Nat) (pos w p : Nat)
    (h : readU16BE input pos = .ok (w, p)) :
    (get_songs input pos = .ok (w, p) ↔ 1 ≤ w ∧ w ≤ 256) ∧
    (get_songs input pos = .error .invalidSongs ↔ ¬(1 ≤ w ∧ w ≤ 256)) := by
  by_cases hc : 1 ≤ w ∧ w ≤ 256 <;> simp [get_songs, h, hc]

/-- Witness for C7 at the boundary value 256. -/
theorem c7_songs_range_witness :
    (get_songs [0x01, 0x00] 0 = .ok (256, 2) ↔ 1 ≤ 256 ∧ 256 ≤ 256) ∧
    (get_songs [0x01, 0x00] 0 = .error .invalidSongs ↔ ¬(1 ≤ 256 ∧ 256 ≤ 256)) :=
  c7_songs_range [0x01, 0x00] 0 256 2 (by decide)

/-- Claim C8: for an input reaching the start song field with two bytes
available, the field is accepted exactly when its value is at most the song
count (in particular zero is accepted, no lower bound is enforced) and
rejected with the invalid start song error exactly when it exceeds it. -/
theorem c8_start_song_bound (input : List Nat) (pos songs w p : Nat)
    (h : readU16BE input pos = .ok (w, p)) :
    (get_start_song input pos songs = .ok (w, p) ↔ w ≤ songs) ∧
    (get_start_song input pos songs = .error .invalidStartSong ↔ songs < w) := by
  by_cases hc : w ≤ songs
  all_goals simp [get_start_song, h, hc]
  all_goals omega

/-- Witness for C8: start song zero with five songs is accepted. -/
theorem c8_start_song_bound_witness :
    (get_start_song [0x00, 0x00] 0 5 = .ok (0, 2) ↔ 0 ≤ 5) ∧
    (get_start_song [0x00, 0x00] 0 5 = .error .invalidStartSong ↔ 5 < 0) :=
  c8_start_song_bound [0x00, 0x00] 0 5 0 2 (by decide)

/-- Claim C9: for an input reaching the init address field with two bytes
available, an RSID file accepts the big-endian value exactly when it lies in
0x07E8 to 0x9FFF or 0xC000 to 0xCFFF and fails with the invalid init address
error otherwise, while a PSID file accepts every 16-bit value. -/
theorem c9_init_address_ranges (input : List Nat) (pos w p : Nat)
    (h : readU16BE input pos = .ok (w, p)) :
    (get_init_address input pos .RSID = .ok (w, p) ↔
      (0x07E8 ≤ w ∧ w ≤ 0x9FFF) ∨ (0xC000 ≤ w ∧ w ≤ 0xCFFF)) ∧
    (get_init_address input pos .RSID = .error .invalidInitAddress ↔
      ¬((0x07E8 ≤ w ∧ w ≤ 0x9FFF) ∨ (0xC000 ≤ w ∧ w ≤ 0xCFFF))) ∧
    (w ≤ 0xFFFF → get_init_address input pos .PSID = .ok (w, p)) := by
  have hps : w ≤ 0xFFFF → get_init_address input pos .PSID = .ok (w, p) := by
    intro hw
    simp [get_init_address, h, hw]
  by_cases h1 : 0x07E8 ≤ w ∧ w ≤ 0x9FFF
  · exact ⟨by simp [get_init_address, h, h1], by simp [get_init_address, h, h1], hps⟩
  · by_cases h2 : 0xC000 ≤ w ∧ w ≤ 0xCFFF
    · exact ⟨by simp [get_init_address, h, h1, h2],
        by simp [get_init_address, h, h1, h2], hps⟩
    · exact ⟨by simp [get_init_address, h, h1, h2],
        by simp [get_init_address, h, h1, h2], hps⟩

/-- Witness for C9 at init address 0x0800. -/
theorem c9_init_address_ranges_witness :
    (get_init_address [0x08, 0x00] 0 .RSID = .ok (0x0800, 2) ↔
      (0x07E8 ≤ 0x0800 ∧ 0x0800 ≤ 0x9FFF) ∨ (0xC000 ≤ 0x0800 ∧ 0x0800 ≤ 0xCFFF)) ∧
    (get_init_address [0x08, 0x00] 0 .RSID = .error .invalidInitAddress ↔
      ¬((0x07E8 ≤ 0x0800 ∧ 0x0800 ≤ 0x9FFF) ∨ (0xC000 ≤ 0x0800 ∧ 0x0800 ≤ 0xCFFF))) ∧
    (0x0800 ≤ 0xFFFF → get_init_address [0x08, 0x00] 0 .PSID = .ok (0x0800, 2)) :=
  c9_init_address_ranges [0x08, 0x00] 0 0x0800 2 (by decide)

/-- Claim C10: decode is total on arbitrary byte lists, always returning a
parsed file or a typed error, and the bit vector built while decoding the
flags always has 17 entries, so every index the source uses is in range. -/
theorem c10_totality :
    (∀ flags : Nat, (flagBits flags).length = 17) ∧
    (∀ input : List Nat, (∃ p, parse input = .ok p) ∨ (∃ e, parse input = .error e)) := by
  refine ⟨fun flags => by simp [flagBits], fun input => ?_⟩
  cases hp : parse input with
  | ok p => exact Or.inl ⟨p, rfl⟩
  | error e => exact Or.inr ⟨e, rfl⟩

end Sid
